import Mathlib

/-!
# Host agent (cmd/agent/agent.go): domain inventory over HTTP

A shallow embedding of `GetAllDomains`, `LoadConfig` and `domainListHandler`.
The hypervisor library, the file system and the YAML parser are external
collaborators; their outcomes are fields of `World`.  Every function returns,
next to its Go result, the ordered list of external calls it performed.
-/

namespace Agent

/-! ## Go values -/

/-- A Go slice value: either the nil slice or a slice with the given elements. -/
inductive Slice (α : Type) where
  | nil : Slice α
  | elems (xs : List α) : Slice α
deriving DecidableEq, Repr

/-- Go builtin `append(s, x)`: appending to the nil slice allocates. -/
def Slice.append {α : Type} : Slice α → α → Slice α
  | .nil, x => .elems [x]
  | .elems xs, x => .elems (xs ++ [x])

/-- The elements of a slice, in order (`range` over a nil slice visits nothing). -/
def Slice.toList {α : Type} : Slice α → List α
  | .nil => []
  | .elems xs => xs

/-- Struct `DomainInfo` (agent.go:17-20). -/
structure DomainInfo where
  DomName : String
  Status : String
deriving DecidableEq, Repr

/-- Struct `JsonInfo` (agent.go:23-26). -/
structure JsonInfo where
  DomainInfo : Slice DomainInfo
  AgentName : String
deriving DecidableEq, Repr

/-- Struct `Config` (agent.go:29-31). -/
structure Config where
  AgentName : String
deriving DecidableEq, Repr

/-! ## The hypervisor library -/

/-- Go type `libvirt.DomainState` (an `int`). -/
abbrev DomainState := Int

/-- Modelled from the spec: the run states of the external hypervisor library
(`libvirt.DOMAIN_*`, not part of this repository); the numbering is that of
libvirt's `virDomainState`. This one is "no-state". -/
def DOMAIN_NOSTATE : DomainState := 0
/-- Modelled from the spec: run state "running" of the external hypervisor library. -/
def DOMAIN_RUNNING : DomainState := 1
/-- Modelled from the spec: run state "blocked" of the external hypervisor library. -/
def DOMAIN_BLOCKED : DomainState := 2
/-- Modelled from the spec: run state "paused" of the external hypervisor library. -/
def DOMAIN_PAUSED : DomainState := 3
/-- Modelled from the spec: run state "shutdown" of the external hypervisor library. -/
def DOMAIN_SHUTDOWN : DomainState := 4
/-- Modelled from the spec: run state "shut-off" of the external hypervisor library. -/
def DOMAIN_SHUTOFF : DomainState := 5
/-- Modelled from the spec: run state "crashed" of the external hypervisor library. -/
def DOMAIN_CRASHED : DomainState := 6
/-- Modelled from the spec: run state "pm-suspended" of the external hypervisor library. -/
def DOMAIN_PMSUSPENDED : DomainState := 7

/-- Flag `libvirt.CONNECT_LIST_DOMAINS_ACTIVE` of the external library. -/
def CONNECT_LIST_DOMAINS_ACTIVE : Nat := 1
/-- Flag `libvirt.CONNECT_LIST_DOMAINS_INACTIVE` of the external library. -/
def CONNECT_LIST_DOMAINS_INACTIVE : Nat := 2

/-- A domain handle returned by the enumeration, with the outcomes its two
lookups have: `GetName` gives a name or an error text, `GetState` gives a
state (the reason is discarded by the caller) or an error text. -/
structure Domain where
  handle : Nat
  getName : Except String String
  getState : Except String DomainState
deriving Repr

/-- The external collaborators as seen by one request. -/
structure World where
  /-- Outcome of `os.ReadFile(path)`. -/
  readFile : String → Except String String
  /-- Outcome of the YAML parser on the file contents: the top-level keys with
  their scalar values, or a parse error. -/
  yamlParse : String → Except String (List (String × String))
  /-- Outcome of `libvirt.NewConnect(uri)`: `none` is success. -/
  newConnect : String → Option String
  /-- Outcome of `conn.ListAllDomains(flags)`. -/
  listAllDomains : Nat → Except String (List Domain)

/-- An external call, as recorded in the order performed. -/
inductive Call where
  | readFile (path : String)
  | yamlUnmarshal (data : String)
  | newConnect (uri : String)
  | listAllDomains (flags : Nat)
  | getName (handle : Nat)
  | getState (handle : Nat)
  | free (handle : Nat)
  | close
  | logPrintf (msg : String)
deriving DecidableEq, Repr

/-- The calls that go to the hypervisor. -/
def Call.isHypervisor : Call → Bool
  | .newConnect _ => true
  | .listAllDomains _ => true
  | .getName _ => true
  | .getState _ => true
  | .free _ => true
  | .close => true
  | _ => false

/-- The calls that belong to the config load. -/
def Call.isConfigLoad : Call → Bool
  | .readFile _ => true
  | .yamlUnmarshal _ => true
  | _ => false

/-! ## GetAllDomains (agent.go:34-81) -/

/-- Lines 66-69: `status := "inactive"`, overwritten by `"active"` for the
three states tested. -/
def statusOf (state : DomainState) : String :=
  if state == DOMAIN_RUNNING || state == DOMAIN_PAUSED || state == DOMAIN_NOSTATE then
    "active"
  else
    "inactive"

/-- One iteration of the `for` loop (lines 53-77): the list after the
iteration and the calls made. The two `continue` statements leave the list
as it is and come before `domain.Free()`. -/
def loopBody (domain : Domain) (domainList : Slice DomainInfo) : Slice DomainInfo × List Call :=
  match domain.getName with
  | .error err =>
    (domainList, [.getName domain.handle, .logPrintf ("Failed to get domain name: " ++ err)])
  | .ok name =>
    match domain.getState with
    | .error err =>
      (domainList,
        [.getName domain.handle, .getState domain.handle,
         .logPrintf ("Failed to get domain state for " ++ name ++ ": " ++ err)])
    | .ok state =>
      (domainList.append { DomName := name, Status := statusOf state },
        [.getName domain.handle, .getState domain.handle, .free domain.handle])

/-- The `for _, domain := range domains` loop (lines 52-78). -/
def rangeLoop : List Domain → Slice DomainInfo → Slice DomainInfo × List Call
  | [], domainList => (domainList, [])
  | domain :: rest, domainList =>
    let step := loopBody domain domainList
    let tail := rangeLoop rest step.1
    (tail.1, step.2 ++ tail.2)

/-- The Go result pair of `GetAllDomains` together with the calls made. -/
structure DomainsResult where
  domains : Slice DomainInfo
  err : Option String
  calls : List Call
deriving Repr

/-- Function `GetAllDomains` (lines 34-81). `defer conn.Close()` is registered
only after a successful connect and runs last on each later return. -/
def GetAllDomains (w : World) : DomainsResult :=
  match w.newConnect "qemu:///system" with
  | some err =>
    { domains := .nil, err := some ("failed to connect to libvirt: " ++ err),
      calls := [.newConnect "qemu:///system"] }
  | none =>
    let flags := CONNECT_LIST_DOMAINS_ACTIVE ||| CONNECT_LIST_DOMAINS_INACTIVE
    match w.listAllDomains flags with
    | .error err =>
      { domains := .nil, err := some ("failed to list domains: " ++ err),
        calls := [.newConnect "qemu:///system", .listAllDomains flags] ++ [.close] }
    | .ok domains =>
      let out := rangeLoop domains .nil
      { domains := out.1, err := none,
        calls := [.newConnect "qemu:///system", .listAllDomains flags] ++ out.2 ++ [.close] }

/-! ## LoadConfig (agent.go:84-99) -/

/-- Decoding of a parsed document into a zero-initialised `Config`: the field
tagged `agent_name` is set when the key is present and keeps the zero value
(the empty string) otherwise. -/
def decodeConfig (doc : List (String × String)) : Config :=
  match doc.lookup "agent_name" with
  | some v => { AgentName := v }
  | none => { AgentName := "" }

/-- The Go result pair of `LoadConfig` together with the calls made. -/
structure ConfigResult where
  config : Config
  err : Option String
  calls : List Call
deriving Repr

/-- Function `LoadConfig` (lines 84-99). -/
def LoadConfig (w : World) (filePath : String) : ConfigResult :=
  match w.readFile filePath with
  | .error err =>
    { config := { AgentName := "" }, err := some ("failed to read config file: " ++ err),
      calls := [.readFile filePath] }
  | .ok data =>
    match w.yamlParse data with
    | .error err =>
      { config := { AgentName := "" }, err := some ("failed to parse config file: " ++ err),
        calls := [.readFile filePath, .yamlUnmarshal data] }
    | .ok doc =>
      { config := decodeConfig doc, err := none,
        calls := [.readFile filePath, .yamlUnmarshal data] }

/-! ## The HTTP boundary (agent.go:102-134) -/

/-- A JSON value. -/
inductive Json where
  | null : Json
  | str (s : String) : Json
  | arr (items : List Json) : Json
  | obj (members : List (String × Json)) : Json

/-- Encoding of a `DomainInfo` by `encoding/json`: its two tagged fields. -/
def DomainInfo.toJson (d : DomainInfo) : Json :=
  .obj [("dom_name", .str d.DomName), ("status", .str d.Status)]

/-- Encoding of a slice by `encoding/json`: a nil slice encodes as `null`,
any other slice as an array. -/
def sliceToJson : Slice DomainInfo → Json
  | .nil => .null
  | .elems xs => .arr (xs.map DomainInfo.toJson)

/-- Encoding of a `JsonInfo` by `encoding/json`. -/
def JsonInfo.toJson (j : JsonInfo) : Json :=
  .obj [("domain_info", sliceToJson j.DomainInfo), ("agent_name", .str j.AgentName)]

/-- What was written as the response body. -/
inductive Body where
  | text (s : String) : Body
  | json (value : JsonInfo) : Body
deriving DecidableEq, Repr

/-- The JSON document of a body, when the body is one. -/
def Body.document : Body → Option Json
  | .text _ => none
  | .json v => some v.toJson

structure Request where
  method : String
deriving DecidableEq, Repr

structure Response where
  status : Nat
  header : List (String × String)
  body : Body
deriving DecidableEq, Repr

def MethodGet : String := "GET"
def StatusOK : Nat := 200
def StatusMethodNotAllowed : Nat := 405
def StatusInternalServerError : Nat := 500

/-- Library function `http.Error(w, msg, code)`: a plain-text reply whose body
is the message followed by a newline. -/
def httpError (msg : String) (code : Nat) : Response :=
  { status := code,
    header := [("Content-Type", "text/plain; charset=utf-8"), ("X-Content-Type-Options", "nosniff")],
    body := .text (msg ++ "\n") }

/-- The handler returned by `domainListHandler(configFile)` (lines 103-133),
run on one request: the response and the calls made. -/
def domainListHandler (w : World) (configFile : String) (r : Request) : Response × List Call :=
  if r.method != MethodGet then
    (httpError "Invalid request method" StatusMethodNotAllowed, [])
  else
    let loaded := LoadConfig w configFile
    match loaded.err with
    | some err =>
      (httpError ("Failed to load config: " ++ err) StatusInternalServerError, loaded.calls)
    | none =>
      let fetched := GetAllDomains w
      match fetched.err with
      | some err =>
        (httpError ("Failed to fetch domains: " ++ err) StatusInternalServerError,
          loaded.calls ++ fetched.calls)
      | none =>
        let response : JsonInfo := { DomainInfo := fetched.domains, AgentName := loaded.config.AgentName }
        ({ status := StatusOK, header := [("Content-Type", "application/json")],
           body := .json response },
          loaded.calls ++ fetched.calls)

/-- The handler of the spec's reordering remark ("the two steps ... could be
reordered"): the same handler with the domain query run before the config
load. Written from the spec, for comparison with `domainListHandler`. -/
def reorderedHandler (w : World) (configFile : String) (r : Request) : Response × List Call :=
  if r.method != MethodGet then
    (httpError "Invalid request method" StatusMethodNotAllowed, [])
  else
    let fetched := GetAllDomains w
    match fetched.err with
    | some err =>
      (httpError ("Failed to fetch domains: " ++ err) StatusInternalServerError, fetched.calls)
    | none =>
      let loaded := LoadConfig w configFile
      match loaded.err with
      | some err =>
        (httpError ("Failed to load config: " ++ err) StatusInternalServerError,
          fetched.calls ++ loaded.calls)
      | none =>
        let response : JsonInfo := { DomainInfo := fetched.domains, AgentName := loaded.config.AgentName }
        ({ status := StatusOK, header := [("Content-Type", "application/json")],
           body := .json response },
          fetched.calls ++ loaded.calls)

/-! ## Derived notions used in the statements -/

/-- The record the loop emits for a domain, if it emits one. -/
def recordOf (d : Domain) : Option DomainInfo :=
  match d.getName, d.getState with
  | .ok name, .ok state => some { DomName := name, Status := statusOf state }
  | _, _ => none

/-- A domain resolves when both of its lookups succeed. -/
def Domain.resolves (d : Domain) : Bool :=
  (recordOf d).isSome

/-- A JSON value is a domain object: exactly the members `dom_name` (a string)
and `status` (the string "active" or "inactive"). -/
def isDomainObject : Json → Bool
  | .obj [("dom_name", .str _), ("status", .str s)] => s == "active" || s == "inactive"
  | _ => false

/-- A JSON value is an array of domain objects. -/
def isDomainArray : Json → Bool
  | .arr items => items.all isDomainObject
  | _ => false

/-- Member `domain_info` of the encoded response document. -/
def domainInfoMember : Json → Option Json
  | .obj members => members.lookup "domain_info"
  | _ => none

/-! ## Example worlds -/

/-- A world whose config file reads and parses, with the given enumeration. -/
def okWorld (doc : List (String × String)) (ds : List Domain) : World :=
  { readFile := fun _ => .ok "agent_name: a1"
    yamlParse := fun _ => .ok doc
    newConnect := fun _ => none
    listAllDomains := fun _ => .ok ds }

def vmRunning : Domain := { handle := 0, getName := .ok "vm0", getState := .ok DOMAIN_RUNNING }
def vmNoName : Domain := { handle := 1, getName := .error "gone", getState := .ok DOMAIN_RUNNING }
def vmShutoff : Domain := { handle := 2, getName := .ok "vm2", getState := .ok DOMAIN_SHUTOFF }
def vmNoState : Domain := { handle := 3, getName := .ok "vm3", getState := .error "gone" }
def vmEmptyName : Domain := { handle := 4, getName := .ok "", getState := .ok DOMAIN_RUNNING }

/-- A world whose config file is fine and whose hypervisor refuses the connection. -/
def noConnectWorld : World :=
  { readFile := fun _ => .ok "agent_name: a1"
    yamlParse := fun _ => .ok [("agent_name", "a1")]
    newConnect := fun _ => some "socket not found"
    listAllDomains := fun _ => .ok [] }

/-- A world in which the config file is unreadable and the connection is refused. -/
def bothFailWorld : World :=
  { readFile := fun _ => .error "no such file"
    yamlParse := fun _ => .ok []
    newConnect := fun _ => some "socket not found"
    listAllDomains := fun _ => .ok [] }

/-! ## Lemmas on the loop -/

theorem recordOf_eq_some (d : Domain) (r : DomainInfo) :
    recordOf d = some r ↔
      ∃ name state, d.getName = .ok name ∧ d.getState = .ok state ∧
        r = { DomName := name, Status := statusOf state } := by
  unfold recordOf
  cases hn : d.getName <;> cases hs : d.getState <;> simp [eq_comm]

theorem loopBody_fst (d : Domain) (acc : Slice DomainInfo) :
    (loopBody d acc).1 = match recordOf d with
      | some r => acc.append r
      | none => acc := by
  unfold loopBody recordOf
  cases hn : d.getName <;> cases hs : d.getState <;> rfl

theorem loopBody_snd (d : Domain) (acc : Slice DomainInfo) :
    (loopBody d acc).2 = (loopBody d .nil).2 := by
  unfold loopBody
  cases hn : d.getName <;> cases hs : d.getState <;> rfl

theorem Slice.toList_append {α : Type} (s : Slice α) (x : α) :
    (s.append x).toList = s.toList ++ [x] := by
  cases s <;> rfl

theorem rangeLoop_toList (ds : List Domain) (acc : Slice DomainInfo) :
    (rangeLoop ds acc).1.toList = acc.toList ++ ds.filterMap recordOf := by
  induction ds generalizing acc with
  | nil => simp [rangeLoop]
  | cons d rest ih =>
    simp only [rangeLoop, ih, loopBody_fst]
    cases hr : recordOf d with
    | none => simp [List.filterMap_cons, hr]
    | some r => simp [List.filterMap_cons, hr, Slice.toList_append]

theorem rangeLoop_nil_iff (ds : List Domain) :
    (rangeLoop ds .nil).1 = .nil ↔ ds.filterMap recordOf = [] := by
  have key : ∀ (l : List Domain) (acc : Slice DomainInfo),
      (rangeLoop l acc).1 = .nil ↔ acc = .nil ∧ l.filterMap recordOf = [] := by
    intro l
    induction l with
    | nil => intro acc; simp [rangeLoop]
    | cons d rest ih =>
      intro acc
      simp only [rangeLoop, ih, loopBody_fst]
      cases hr : recordOf d with
      | none => simp [List.filterMap_cons, hr]
      | some r => cases acc <;> simp [List.filterMap_cons, hr, Slice.append]
  simpa using key ds .nil

theorem rangeLoop_calls (ds : List Domain) (acc : Slice DomainInfo) :
    (rangeLoop ds acc).2 = (ds.map fun d => (loopBody d .nil).2).flatten := by
  induction ds generalizing acc with
  | nil => simp [rangeLoop]
  | cons d rest ih =>
    simp only [rangeLoop, ih, List.map_cons, List.flatten_cons]
    rw [loopBody_snd]

theorem loopBody_no_close (d : Domain) : Call.close ∉ (loopBody d .nil).2 := by
  unfold loopBody
  cases hn : d.getName <;> cases hs : d.getState <;> simp

theorem rangeLoop_no_close (ds : List Domain) (acc : Slice DomainInfo) :
    Call.close ∉ (rangeLoop ds acc).2 := by
  rw [rangeLoop_calls]
  simp only [List.mem_flatten, List.mem_map, not_exists, not_and]
  rintro l ⟨d, -, rfl⟩
  exact loopBody_no_close d

theorem GetAllDomains_ok (w : World) (ds : List Domain)
    (hc : w.newConnect "qemu:///system" = none)
    (hl : w.listAllDomains 3 = .ok ds) :
    GetAllDomains w =
      { domains := (rangeLoop ds .nil).1, err := none,
        calls := [.newConnect "qemu:///system", .listAllDomains 3] ++ (rangeLoop ds .nil).2
          ++ [.close] } := by
  have hf : CONNECT_LIST_DOMAINS_ACTIVE ||| CONNECT_LIST_DOMAINS_INACTIVE = 3 := by decide
  simp only [GetAllDomains, hc, hf, hl]

theorem LoadConfig_calls (w : World) (filePath : String) :
    ∀ c ∈ (LoadConfig w filePath).calls, c.isConfigLoad = true := by
  intro c hc
  unfold LoadConfig at hc
  cases hr : w.readFile filePath with
  | error e =>
    simp only [hr, List.mem_singleton] at hc
    subst hc; rfl
  | ok data =>
    cases hp : w.yamlParse data <;>
    · simp only [hr, hp, List.mem_cons, List.mem_singleton, List.not_mem_nil, or_false] at hc
      rcases hc with rfl | rfl <;> rfl

theorem statusOf_active_iff (s : DomainState) :
    statusOf s = "active" ↔ s = DOMAIN_RUNNING ∨ s = DOMAIN_PAUSED ∨ s = DOMAIN_NOSTATE := by
  unfold statusOf
  split
  next h => simpa [or_assoc] using h
  next h =>
    simp only [Bool.or_eq_true, beq_iff_eq] at h
    constructor
    · intro hx; exact absurd hx (by decide)
    · intro hx; exact absurd (by tauto) h

theorem statusOf_inactive_iff (s : DomainState) :
    statusOf s = "inactive" ↔ ¬ (s = DOMAIN_RUNNING ∨ s = DOMAIN_PAUSED ∨ s = DOMAIN_NOSTATE) := by
  rw [← statusOf_active_iff]
  unfold statusOf
  split <;> decide

/-! ## Status classification -/

/-- C1: the status `GetAllDomains` gives a domain is the value of `statusOf` at
its run state; that value is "active" exactly for running, paused and
no-state, "inactive" exactly for every other state (blocked, shutdown,
shut-off, crashed and pm-suspended among them), and never a third string. -/
theorem status_classification (w : World) (ds : List Domain)
    (hc : w.newConnect "qemu:///system" = none)
    (hl : w.listAllDomains 3 = .ok ds) :
    (GetAllDomains w).domains.toList = ds.filterMap recordOf ∧
    (∀ d r, recordOf d = some r → ∃ s, d.getState = .ok s ∧ r.Status = statusOf s) ∧
    (∀ s : DomainState,
      (statusOf s = "active" ↔ s = DOMAIN_RUNNING ∨ s = DOMAIN_PAUSED ∨ s = DOMAIN_NOSTATE) ∧
      (statusOf s = "inactive" ↔ ¬ (s = DOMAIN_RUNNING ∨ s = DOMAIN_PAUSED ∨ s = DOMAIN_NOSTATE)) ∧
      (statusOf s = "active" ∨ statusOf s = "inactive")) ∧
    statusOf DOMAIN_BLOCKED = "inactive" ∧ statusOf DOMAIN_SHUTDOWN = "inactive" ∧
    statusOf DOMAIN_SHUTOFF = "inactive" ∧ statusOf DOMAIN_CRASHED = "inactive" ∧
    statusOf DOMAIN_PMSUSPENDED = "inactive" := by
  refine ⟨?_, ?_, ?_, by decide, by decide, by decide, by decide, by decide⟩
  · rw [GetAllDomains_ok w ds hc hl]
    simpa [Slice.toList] using rangeLoop_toList ds .nil
  · intro d r hr
    obtain ⟨name, state, -, hs, rfl⟩ := (recordOf_eq_some d r).1 hr
    exact ⟨state, hs, rfl⟩
  · intro s
    refine ⟨statusOf_active_iff s, statusOf_inactive_iff s, ?_⟩
    unfold statusOf
    split <;> simp

/-- Witness for C1: a running and a shut-off domain. -/
theorem status_classification_witness :
    (GetAllDomains (okWorld [] [vmRunning, vmShutoff])).domains.toList
      = [vmRunning, vmShutoff].filterMap recordOf :=
  (status_classification (okWorld [] [vmRunning, vmShutoff]) [vmRunning, vmShutoff] rfl rfl).1

/-! ## Per-domain failures are skipped -/

/-- C2: after a successful connect and list the query succeeds and returns, in
enumeration order, the record of each domain whose two lookups succeed and
nothing else; when exactly one domain of the enumeration fails, the result
holds the records of the other N-1, and a GET request whose config load
succeeds is answered 200 with that list (so is every request for which the
handler reaches the enumeration). -/
theorem skipped_domains_nonfatal (w : World) (ds : List Domain)
    (hc : w.newConnect "qemu:///system" = none)
    (hl : w.listAllDomains 3 = .ok ds) :
    (GetAllDomains w).err = none ∧
    (GetAllDomains w).domains.toList = ds.filterMap recordOf ∧
    (∀ d r, recordOf d = some r ↔
      ∃ name state, d.getName = .ok name ∧ d.getState = .ok state ∧
        r = { DomName := name, Status := statusOf state }) ∧
    (∀ pre bad post, ds = pre ++ bad :: post →
      (∀ d ∈ pre, d.resolves = true) → bad.resolves = false → (∀ d ∈ post, d.resolves = true) →
      (GetAllDomains w).domains.toList = (pre ++ post).filterMap recordOf ∧
      (GetAllDomains w).domains.toList.length = ds.length - 1) ∧
    (∀ configFile r, r.method = MethodGet → (LoadConfig w configFile).err = none →
      (domainListHandler w configFile r).1.status = 200 ∧
      (domainListHandler w configFile r).1.body =
        .json { DomainInfo := (GetAllDomains w).domains,
                AgentName := (LoadConfig w configFile).config.AgentName }) ∧
    (∀ configFile r, Call.listAllDomains 3 ∈ (domainListHandler w configFile r).2 →
      (domainListHandler w configFile r).1.status = 200) := by
  have hres : (GetAllDomains w).domains.toList = ds.filterMap recordOf := by
    rw [GetAllDomains_ok w ds hc hl]
    simpa [Slice.toList] using rangeLoop_toList ds .nil
  have herr : (GetAllDomains w).err = none := by rw [GetAllDomains_ok w ds hc hl]
  refine ⟨herr, hres, recordOf_eq_some, ?_, ?_, ?_⟩
  · intro pre bad post hds hpre hbad hpost
    have hlen : ∀ l : List Domain, (∀ d ∈ l, d.resolves = true) →
        (l.filterMap recordOf).length = l.length := by
      intro l hall
      induction l with
      | nil => rfl
      | cons a t ih =>
        have ha : (recordOf a).isSome = true := hall a (List.mem_cons_self a t)
        obtain ⟨r, hr⟩ := Option.isSome_iff_exists.1 ha
        have := ih (fun d hd => hall d (List.mem_cons_of_mem a hd))
        simp [List.filterMap_cons, hr, this]
    have hbadnone : recordOf bad = none := by
      have : (recordOf bad).isSome = false := hbad
      cases h : recordOf bad with
      | none => rfl
      | some r => rw [h] at this; cases this
    have heq : ds.filterMap recordOf = (pre ++ post).filterMap recordOf := by
      rw [hds]
      simp [List.filterMap_append, List.filterMap_cons, hbadnone]
    refine ⟨hres.trans heq, ?_⟩
    rw [hres, heq, List.filterMap_append, List.length_append, hlen pre hpre, hlen post hpost, hds]
    simp
  · intro configFile r hget hcfg
    simp [domainListHandler, hget, hcfg, herr, StatusOK]
  · intro configFile r hmem
    by_cases hm : (r.method != MethodGet) = true
    · simp [domainListHandler, hm] at hmem
    · cases hcfg : (LoadConfig w configFile).err with
      | some e =>
        simp only [domainListHandler, hm, hcfg] at hmem
        have := LoadConfig_calls w configFile _ hmem
        cases this
      | none =>
        simp [domainListHandler, hm, hcfg, herr, StatusOK]

/-- Witness for C2: three domains, the middle one without a name. -/
theorem skipped_domains_nonfatal_witness :
    (GetAllDomains (okWorld [] [vmRunning, vmNoName, vmShutoff])).domains.toList.length = 3 - 1 ∧
    (domainListHandler (okWorld [] [vmRunning, vmNoName, vmShutoff]) "agent.yaml"
      { method := "GET" }).1.status = 200 :=
  ⟨((skipped_domains_nonfatal (okWorld [] [vmRunning, vmNoName, vmShutoff])
      [vmRunning, vmNoName, vmShutoff] rfl rfl).2.2.2.1 [vmRunning] vmNoName [vmShutoff] rfl
      (by decide) (by decide) (by decide)).2,
   ((skipped_domains_nonfatal (okWorld [] [vmRunning, vmNoName, vmShutoff])
      [vmRunning, vmNoName, vmShutoff] rfl rfl).2.2.2.2.1 "agent.yaml" { method := "GET" }
      rfl rfl).1⟩

/-! ## Names of the emitted records -/

/-- C3, as stated, fails: a domain whose name lookup succeeds with the empty
string is emitted with that empty name. -/
theorem empty_name_emitted :
    ¬ (∀ w : World, ∀ r ∈ (GetAllDomains w).domains.toList, r.DomName ≠ "") := by
  intro h
  exact h (okWorld [] [vmEmptyName]) { DomName := "", Status := "active" } (by decide) rfl

/-- C3, amended: for every outcome of the hypervisor calls, every record
carries the name a successful name lookup of an enumerated domain returned,
and a domain whose name lookup fails is never emitted (the list is the one
the enumeration without that domain gives); every record has a non-empty
name whenever no successful name lookup returns the empty string. -/
theorem record_names_resolved (w : World) :
    (∀ r ∈ (GetAllDomains w).domains.toList,
      ∃ ds, w.listAllDomains 3 = .ok ds ∧ ∃ d ∈ ds, d.getName = .ok r.DomName) ∧
    (∀ ds, w.newConnect "qemu:///system" = none → w.listAllDomains 3 = .ok ds →
      (GetAllDomains w).domains.toList = ds.filterMap recordOf) ∧
    (∀ pre bad post e, w.newConnect "qemu:///system" = none →
      w.listAllDomains 3 = .ok (pre ++ bad :: post) → bad.getName = .error e →
      recordOf bad = none ∧
      (GetAllDomains w).domains.toList = (pre ++ post).filterMap recordOf) ∧
    ((∀ ds, w.listAllDomains 3 = .ok ds → ∀ d ∈ ds, d.getName ≠ .ok "") →
      ∀ r ∈ (GetAllDomains w).domains.toList, r.DomName ≠ "") := by
  have hlist : ∀ ds, w.newConnect "qemu:///system" = none → w.listAllDomains 3 = .ok ds →
      (GetAllDomains w).domains.toList = ds.filterMap recordOf := by
    intro ds hc hl
    rw [GetAllDomains_ok w ds hc hl]
    simpa [Slice.toList] using rangeLoop_toList ds .nil
  have hmem : ∀ r ∈ (GetAllDomains w).domains.toList,
      ∃ ds, w.listAllDomains 3 = .ok ds ∧ ∃ d ∈ ds, d.getName = .ok r.DomName := by
    intro r hr
    cases hc : w.newConnect "qemu:///system" with
    | some e => simp [GetAllDomains, hc, Slice.toList] at hr
    | none =>
      cases hl : w.listAllDomains 3 with
      | error e =>
        have hf : CONNECT_LIST_DOMAINS_ACTIVE ||| CONNECT_LIST_DOMAINS_INACTIVE = 3 := by decide
        simp [GetAllDomains, hc, hf, hl, Slice.toList] at hr
      | ok ds =>
        rw [hlist ds hc hl] at hr
        obtain ⟨d, hd, hrec⟩ := List.mem_filterMap.1 hr
        obtain ⟨name, state, hn, -, rfl⟩ := (recordOf_eq_some d r).1 hrec
        exact ⟨ds, rfl, d, hd, hn⟩
  refine ⟨hmem, hlist, ?_, ?_⟩
  · intro pre bad post e hc hl hbad
    have hnone : recordOf bad = none := by
      unfold recordOf
      rw [hbad]
    refine ⟨hnone, ?_⟩
    rw [hlist _ hc hl]
    simp [List.filterMap_append, List.filterMap_cons, hnone]
  · intro hne r hr hempty
    obtain ⟨ds, hl, d, hd, hn⟩ := hmem r hr
    exact hne ds hl d hd (hempty ▸ hn)

/-- Witness for C3 (amended): with an empty-named domain, one without a name
and a running one, the nameless domain is not emitted and the other two are;
with only the running and the nameless domain, the emitted name is non-empty. -/
theorem record_names_resolved_witness :
    (recordOf vmNoName = none ∧
      (GetAllDomains (okWorld [] [vmEmptyName, vmNoName, vmRunning])).domains.toList
        = ([vmEmptyName] ++ [vmRunning]).filterMap recordOf) ∧
    ({ DomName := "vm0", Status := "active" } : DomainInfo)
        ∈ (GetAllDomains (okWorld [] [vmRunning, vmNoName])).domains.toList ∧
    ({ DomName := "vm0", Status := "active" } : DomainInfo).DomName ≠ "" :=
  ⟨(record_names_resolved (okWorld [] [vmEmptyName, vmNoName, vmRunning])).2.2.1
      [vmEmptyName] vmNoName [vmRunning] "gone" rfl rfl rfl,
   by decide,
   (record_names_resolved (okWorld [] [vmRunning, vmNoName])).2.2.2 (by
    intro ds hds d hd
    have hds2 : [vmRunning, vmNoName] = ds := by
      simpa [okWorld] using hds
    subst hds2
    simp only [List.mem_cons, List.mem_singleton, List.not_mem_nil, or_false] at hd
    rcases hd with rfl | rfl
    · simp [vmRunning]
    · simp [vmNoName]) { DomName := "vm0", Status := "active" } (by decide)⟩

/-! ## Fatal failures -/

/-- C4: on a GET request, when the config file cannot be read or parsed, the
connection cannot be opened, or the enumeration fails, the response is 500
with a plain-text body describing the failure and no JSON document; the
query itself returns the nil list with the error when connecting or listing
fails. -/
theorem fatal_failure_is_500 (w : World) (configFile : String) (r : Request)
    (hget : r.method = MethodGet)
    (hfail : (∃ e, w.readFile configFile = .error e) ∨
      (∃ data e, w.readFile configFile = .ok data ∧ w.yamlParse data = .error e) ∨
      (∃ e, w.newConnect "qemu:///system" = some e) ∨
      (∃ e, w.listAllDomains 3 = .error e)) :
    (domainListHandler w configFile r).1.status = 500 ∧
    (∃ msg, (domainListHandler w configFile r).1.body = .text (msg ++ "\n")) ∧
    (domainListHandler w configFile r).1.body.document = none ∧
    (domainListHandler w configFile r).1.header.lookup "Content-Type"
      = some "text/plain; charset=utf-8" ∧
    (∀ e, w.readFile configFile = .error e →
      (domainListHandler w configFile r).1.body
        = .text ("Failed to load config: " ++ ("failed to read config file: " ++ e) ++ "\n")) ∧
    (∀ data e, w.readFile configFile = .ok data → w.yamlParse data = .error e →
      (domainListHandler w configFile r).1.body
        = .text ("Failed to load config: " ++ ("failed to parse config file: " ++ e) ++ "\n")) ∧
    (∀ e, (LoadConfig w configFile).err = none → w.newConnect "qemu:///system" = some e →
      (domainListHandler w configFile r).1.body
        = .text ("Failed to fetch domains: " ++ ("failed to connect to libvirt: " ++ e) ++ "\n")) ∧
    (∀ e, (LoadConfig w configFile).err = none → w.newConnect "qemu:///system" = none →
      w.listAllDomains 3 = .error e →
      (domainListHandler w configFile r).1.body
        = .text ("Failed to fetch domains: " ++ ("failed to list domains: " ++ e) ++ "\n")) ∧
    (∀ e, w.newConnect "qemu:///system" = some e →
      (GetAllDomains w).domains = .nil ∧
      (GetAllDomains w).err = some ("failed to connect to libvirt: " ++ e)) ∧
    (∀ e, w.newConnect "qemu:///system" = none → w.listAllDomains 3 = .error e →
      (GetAllDomains w).domains = .nil ∧
      (GetAllDomains w).err = some ("failed to list domains: " ++ e)) := by
  have hf : CONNECT_LIST_DOMAINS_ACTIVE ||| CONNECT_LIST_DOMAINS_INACTIVE = 3 := by decide
  have hquery : (∃ e, w.newConnect "qemu:///system" = some e) ∨ (∃ e, w.listAllDomains 3 = .error e) →
      ∃ e, (GetAllDomains w).err = some e := by
    intro h
    cases hc : w.newConnect "qemu:///system" with
    | some e => simp [GetAllDomains, hc]
    | none =>
      rcases h with ⟨e, he⟩ | ⟨e, he⟩
      · rw [hc] at he; cases he
      · simp [GetAllDomains, hc, hf, he]
  have hcases : (∃ e, (LoadConfig w configFile).err = some e) ∨
      ((LoadConfig w configFile).err = none ∧ ∃ e, (GetAllDomains w).err = some e) := by
    cases hcfg : (LoadConfig w configFile).err with
    | some e => exact Or.inl ⟨e, rfl⟩
    | none =>
      right
      refine ⟨rfl, hquery ?_⟩
      rcases hfail with ⟨e, he⟩ | ⟨data, e, hd, he⟩ | h | h
      · simp [LoadConfig, he] at hcfg
      · simp [LoadConfig, hd, he] at hcfg
      · exact Or.inl h
      · exact Or.inr h
  refine ⟨?_, ?_, ?_, ?_, ?_, ?_, ?_, ?_, ?_, ?_⟩
  · rcases hcases with ⟨e, he⟩ | ⟨hn, e, he⟩
    · simp [domainListHandler, hget, he, httpError, StatusInternalServerError]
    · simp [domainListHandler, hget, hn, he, httpError, StatusInternalServerError]
  · rcases hcases with ⟨e, he⟩ | ⟨hn, e, he⟩
    · exact ⟨_, by simp only [domainListHandler, hget, he, httpError, bne_self_eq_false]; rfl⟩
    · exact ⟨_, by simp only [domainListHandler, hget, hn, he, httpError, bne_self_eq_false]; rfl⟩
  · rcases hcases with ⟨e, he⟩ | ⟨hn, e, he⟩
    · simp [domainListHandler, hget, he, httpError, Body.document]
    · simp [domainListHandler, hget, hn, he, httpError, Body.document]
  · rcases hcases with ⟨e, he⟩ | ⟨hn, e, he⟩
    · simp [domainListHandler, hget, he, httpError, List.lookup]
    · simp [domainListHandler, hget, hn, he, httpError, List.lookup]
  · intro e he
    simp [domainListHandler, hget, LoadConfig, he, httpError]
  · intro data e hd he
    simp [domainListHandler, hget, LoadConfig, hd, he, httpError]
  · intro e hn he
    simp [domainListHandler, hget, hn, GetAllDomains, he, httpError]
  · intro e hn hc he
    simp [domainListHandler, hget, hn, GetAllDomains, hc, hf, he, httpError]
  · intro e he
    simp [GetAllDomains, he]
  · intro e hc he
    simp [GetAllDomains, hc, hf, he]

/-- Witness for C4: the hypervisor refuses the connection. -/
theorem fatal_failure_is_500_witness :
    (domainListHandler noConnectWorld "agent.yaml" { method := "GET" }).1.status = 500 ∧
    (domainListHandler noConnectWorld "agent.yaml" { method := "GET" }).1.body.document = none :=
  ⟨(fatal_failure_is_500 noConnectWorld "agent.yaml" { method := "GET" } rfl
      (Or.inr (Or.inr (Or.inl ⟨"socket not found", rfl⟩)))).1,
   (fatal_failure_is_500 noConnectWorld "agent.yaml" { method := "GET" } rfl
      (Or.inr (Or.inr (Or.inl ⟨"socket not found", rfl⟩)))).2.2.1⟩

/-! ## Method check -/

/-- C5: a request whose method is not GET is answered 405 and the handler makes
no external call at all: no config load and no hypervisor call. -/
theorem non_get_is_405 (w : World) (configFile : String) (r : Request)
    (hm : r.method ≠ MethodGet) :
    (domainListHandler w configFile r).1.status = 405 ∧
    (domainListHandler w configFile r).1.body = .text "Invalid request method\n" ∧
    (domainListHandler w configFile r).2 = [] ∧
    (∀ c ∈ (domainListHandler w configFile r).2, c.isConfigLoad = false ∧ c.isHypervisor = false) := by
  have hb : (r.method != MethodGet) = true := by simpa using hm
  have hv : domainListHandler w configFile r
      = (httpError "Invalid request method" StatusMethodNotAllowed, []) := by
    simp only [domainListHandler, hb, if_true]
  rw [hv]
  refine ⟨rfl, rfl, rfl, ?_⟩
  intro c hc
  cases hc

/-- Witness for C5: a POST request. -/
theorem non_get_is_405_witness :
    (domainListHandler (okWorld [] [vmRunning]) "agent.yaml" { method := "POST" }).1.status = 405 ∧
    (domainListHandler (okWorld [] [vmRunning]) "agent.yaml" { method := "POST" }).2 = [] :=
  ⟨(non_get_is_405 (okWorld [] [vmRunning]) "agent.yaml" { method := "POST" } (by decide)).1,
   (non_get_is_405 (okWorld [] [vmRunning]) "agent.yaml" { method := "POST" } (by decide)).2.2.1⟩

/-! ## The success response -/

/-- C6: on a GET request whose config load and domain query both succeed, the
response is 200 with Content-Type application/json; its body holds the agent
name of the loaded config (the value under `agent_name` in the file, the empty
string when the key is absent) and the list the domain query returned. -/
theorem success_response (w : World) (configFile : String) (r : Request)
    (hget : r.method = MethodGet)
    (hcfg : (LoadConfig w configFile).err = none)
    (hq : (GetAllDomains w).err = none) :
    (domainListHandler w configFile r).1.status = 200 ∧
    (domainListHandler w configFile r).1.header.lookup "Content-Type" = some "application/json" ∧
    (domainListHandler w configFile r).1.body =
      .json { DomainInfo := (GetAllDomains w).domains,
              AgentName := (LoadConfig w configFile).config.AgentName } ∧
    (domainListHandler w configFile r).1.body.document =
      some (.obj [("domain_info", sliceToJson (GetAllDomains w).domains),
                  ("agent_name", .str (LoadConfig w configFile).config.AgentName)]) ∧
    (∀ data doc, w.readFile configFile = .ok data → w.yamlParse data = .ok doc →
      (LoadConfig w configFile).config.AgentName =
        match doc.lookup "agent_name" with
        | some v => v
        | none => "") := by
  refine ⟨?_, ?_, ?_, ?_, ?_⟩
  · simp [domainListHandler, hget, hcfg, hq, StatusOK]
  · simp [domainListHandler, hget, hcfg, hq, List.lookup]
  · simp [domainListHandler, hget, hcfg, hq]
  · simp [domainListHandler, hget, hcfg, hq, Body.document, JsonInfo.toJson]
  · intro data doc hd hp
    simp only [LoadConfig, hd, hp, decodeConfig]
    cases doc.lookup "agent_name" <;> rfl

/-- Witness for C6: a config file naming the agent "a1" and one running domain. -/
theorem success_response_witness :
    (domainListHandler (okWorld [("agent_name", "a1")] [vmRunning]) "agent.yaml"
      { method := "GET" }).1.body =
      .json { DomainInfo := (GetAllDomains (okWorld [("agent_name", "a1")] [vmRunning])).domains,
              AgentName :=
                (LoadConfig (okWorld [("agent_name", "a1")] [vmRunning]) "agent.yaml").config.AgentName } :=
  (success_response (okWorld [("agent_name", "a1")] [vmRunning]) "agent.yaml" { method := "GET" }
    rfl rfl rfl).2.2.1

/-! ## Shape of `domain_info` -/

theorem isDomainObject_toJson (d : Domain) (r : DomainInfo) (h : recordOf d = some r) :
    isDomainObject r.toJson = true := by
  obtain ⟨name, state, -, -, rfl⟩ := (recordOf_eq_some d r).1 h
  have hs : statusOf state = "active" ∨ statusOf state = "inactive" := by
    unfold statusOf
    split <;> simp
  rcases hs with hs | hs <;> simp [DomainInfo.toJson, isDomainObject, hs]

/-- The encoded `domain_info` of the query result: `null` when no domain of
the enumeration resolves, an array of domain objects otherwise. -/
theorem domain_info_shape (w : World) (ds : List Domain)
    (hc : w.newConnect "qemu:///system" = none)
    (hl : w.listAllDomains 3 = .ok ds) :
    (ds.filterMap recordOf = [] → sliceToJson (GetAllDomains w).domains = .null) ∧
    (ds.filterMap recordOf ≠ [] → isDomainArray (sliceToJson (GetAllDomains w).domains) = true) := by
  rw [GetAllDomains_ok w ds hc hl]
  constructor
  · intro h
    have := (rangeLoop_nil_iff ds).2 h
    simp only [this, sliceToJson]
  · intro h
    have hne : (rangeLoop ds .nil).1 ≠ .nil := fun hx => h ((rangeLoop_nil_iff ds).1 hx)
    have hlist := rangeLoop_toList ds .nil
    cases hx : (rangeLoop ds .nil).1 with
    | nil => exact absurd hx hne
    | elems xs =>
      rw [hx] at hlist
      simp only [Slice.toList, List.nil_append] at hlist
      subst hlist
      simp only [sliceToJson, isDomainArray]
      rw [List.all_eq_true]
      intro j hj
      obtain ⟨r, hr, rfl⟩ := List.mem_map.1 hj
      obtain ⟨d, -, hd⟩ := List.mem_filterMap.1 hr
      exact isDomainObject_toJson d r hd

/-- C7 fails on the code: when the hypervisor reports no domain, and when the
only domain is skipped, the `domain_info` member of the 200 response is the
JSON value `null`, not an array. -/
theorem domain_info_null_without_records :
    (domainListHandler (okWorld [] []) "agent.yaml" { method := "GET" }).1.status = 200 ∧
    (domainListHandler (okWorld [] []) "agent.yaml" { method := "GET" }).1.body.document.bind
        domainInfoMember = some .null ∧
    (domainListHandler (okWorld [] [vmNoName]) "agent.yaml" { method := "GET" }).1.status = 200 ∧
    (domainListHandler (okWorld [] [vmNoName]) "agent.yaml" { method := "GET" }).1.body.document.bind
        domainInfoMember = some .null :=
  ⟨rfl, rfl, rfl, rfl⟩

/-! ## Release of the connection -/

/-- C8: when the connection is established, `GetAllDomains` closes it exactly
once, as its last call, whether the enumeration fails or the loop runs (with
or without skipped domains); when the connection cannot be established, no
close is performed. -/
theorem connection_closed_once (w : World) :
    (w.newConnect "qemu:///system" = none →
      (GetAllDomains w).calls.count .close = 1 ∧
      (GetAllDomains w).calls.getLast? = some .close) ∧
    (∀ e, w.newConnect "qemu:///system" = some e →
      (GetAllDomains w).calls.count .close = 0) := by
  have hf : CONNECT_LIST_DOMAINS_ACTIVE ||| CONNECT_LIST_DOMAINS_INACTIVE = 3 := by decide
  constructor
  · intro hc
    cases hl : w.listAllDomains 3 with
    | error e =>
      simp only [GetAllDomains, hc, hf, hl]
      exact ⟨by decide, rfl⟩
    | ok ds =>
      rw [GetAllDomains_ok w ds hc hl]
      refine ⟨?_, List.getLast?_concat _⟩
      have h0 : (rangeLoop ds .nil).2.count .close = 0 :=
        List.count_eq_zero.2 (rangeLoop_no_close ds .nil)
      simp only [List.count_append, h0]
      decide
  · intro e he
    simp only [GetAllDomains, he]
    decide

/-- Witness for C8: a loop with one emitted and one skipped domain, and a
refused connection. -/
theorem connection_closed_once_witness :
    (GetAllDomains (okWorld [] [vmRunning, vmNoName])).calls.count .close = 1 ∧
    (GetAllDomains noConnectWorld).calls.count .close = 0 :=
  ⟨((connection_closed_once (okWorld [] [vmRunning, vmNoName])).1 rfl).1,
   (connection_closed_once noConnectWorld).2 "socket not found" rfl⟩

/-! ## Order of the two steps -/

/-- C9, as stated, fails: when both steps fail the two orders answer with
different bodies, and the actual handler reads the config file while the
reordered one does not (and the reordered one calls the hypervisor while the
actual one does not). -/
theorem reorder_changes_behaviour :
    (reorderedHandler bothFailWorld "agent.yaml" { method := "GET" }).1.body
      = .text "Failed to fetch domains: failed to connect to libvirt: socket not found\n" ∧
    (domainListHandler bothFailWorld "agent.yaml" { method := "GET" }).1.body
      = .text "Failed to load config: failed to read config file: no such file\n" ∧
    (reorderedHandler bothFailWorld "agent.yaml" { method := "GET" }).1
      ≠ (domainListHandler bothFailWorld "agent.yaml" { method := "GET" }).1 ∧
    ¬ (∀ c, c ∈ (reorderedHandler bothFailWorld "agent.yaml" { method := "GET" }).2 ↔
          c ∈ (domainListHandler bothFailWorld "agent.yaml" { method := "GET" }).2) := by
  refine ⟨by decide, by decide, by decide, ?_⟩
  intro h
  exact absurd ((h (.readFile "agent.yaml")).2 (by decide)) (by decide)

/-- C9, amended: the reordered handler always answers with the same status as
the actual one; the whole response is the same whenever at least one of the
two steps succeeds; and when both succeed the two handlers make the same
calls, up to order. -/
theorem reorder_equivalence (w : World) (configFile : String) (r : Request) :
    (reorderedHandler w configFile r).1.status = (domainListHandler w configFile r).1.status ∧
    ((LoadConfig w configFile).err = none ∨ (GetAllDomains w).err = none →
      (reorderedHandler w configFile r).1 = (domainListHandler w configFile r).1) ∧
    ((LoadConfig w configFile).err = none → (GetAllDomains w).err = none →
      (reorderedHandler w configFile r).2.Perm (domainListHandler w configFile r).2) := by
  by_cases hm : (r.method != MethodGet) = true
  · simp [reorderedHandler, domainListHandler, hm]
  · cases hcfg : (LoadConfig w configFile).err with
    | none =>
      cases hq : (GetAllDomains w).err with
      | none =>
        simp only [reorderedHandler, domainListHandler, hm, hcfg, hq]
        exact ⟨rfl, fun _ => rfl, fun _ _ => List.perm_append_comm⟩
      | some e =>
        simp only [reorderedHandler, domainListHandler, hm, hcfg, hq]
        exact ⟨rfl, fun _ => rfl, fun _ h => by cases h⟩
    | some e =>
      cases hq : (GetAllDomains w).err with
      | none =>
        simp only [reorderedHandler, domainListHandler, hm, hcfg, hq]
        exact ⟨rfl, fun _ => rfl, fun h => by cases h⟩
      | some e2 =>
        simp only [reorderedHandler, domainListHandler, hm, hcfg, hq]
        refine ⟨rfl, ?_, ?_⟩
        · intro h
          rcases h with h | h <;> cases h
        · intro h
          cases h

/-- Witness for C9 (amended): both steps succeed. -/
theorem reorder_equivalence_witness :
    (reorderedHandler (okWorld [] [vmRunning, vmNoState]) "agent.yaml" { method := "GET" }).1
      = (domainListHandler (okWorld [] [vmRunning, vmNoState]) "agent.yaml" { method := "GET" }).1 ∧
    (reorderedHandler (okWorld [] [vmRunning, vmNoState]) "agent.yaml" { method := "GET" }).2.Perm
      (domainListHandler (okWorld [] [vmRunning, vmNoState]) "agent.yaml" { method := "GET" }).2 :=
  ⟨(reorder_equivalence (okWorld [] [vmRunning, vmNoState]) "agent.yaml" { method := "GET" }).2.1
      (Or.inl rfl),
   (reorder_equivalence (okWorld [] [vmRunning, vmNoState]) "agent.yaml" { method := "GET" }).2.2
      rfl rfl⟩

/-! ## Release of the domain handles -/

/-- The loop frees a handle exactly when the domain resolves: the iteration of
a skipped domain contains no `Free`. -/
theorem loopBody_free_iff (d : Domain) (acc : Slice DomainInfo) :
    (loopBody d acc).2.count (.free d.handle) = if d.resolves then 1 else 0 := by
  unfold loopBody Domain.resolves recordOf
  cases hn : d.getName <;> cases hs : d.getState <;> simp [List.count_cons]

/-- C10 fails on the code: with a resolved domain (handle 0), one whose name
lookup fails (handle 1) and one whose state lookup fails (handle 3), only
handle 0 is freed; the handles of the two skipped domains never are. -/
theorem skipped_handles_not_freed :
    (GetAllDomains (okWorld [] [vmRunning, vmNoName, vmNoState])).err = none ∧
    (GetAllDomains (okWorld [] [vmRunning, vmNoName, vmNoState])).calls.count (.free 0) = 1 ∧
    (GetAllDomains (okWorld [] [vmRunning, vmNoName, vmNoState])).calls.count (.free 1) = 0 ∧
    (GetAllDomains (okWorld [] [vmRunning, vmNoName, vmNoState])).calls.count (.free 3) = 0 ∧
    (GetAllDomains (okWorld [] [vmRunning, vmNoName, vmNoState])).calls =
      [.newConnect "qemu:///system", .listAllDomains 3,
       .getName 0, .getState 0, .free 0,
       .getName 1, .logPrintf "Failed to get domain name: gone",
       .getName 3, .getState 3, .logPrintf "Failed to get domain state for vm3: gone",
       .close] := by
  refine ⟨rfl, by decide, by decide, by decide, by decide⟩

end Agent
